import Mathlib

/-!
Verification development for the eventhub user-management API
(src/src/server.ts): a Fastify HTTP server exposing signup/login and CRUD
on user records, backed by a Prisma store, bcrypt password hashing and
fastify-jwt session tokens.

The embedding below translates the route handlers of server.ts into pure
Lean functions over an explicit store state.  External collaborators
(bcrypt, the JWT library, zod's email format check, the framework's
default error mapping, Prisma's reaction to an undefined unique argument)
are modelled from the spec's contracts for them, each marked in its doc
comment; everything else follows the handler code line by line.
-/

namespace EventHub

/-! ## JSON values

Every request and response body in server.ts is a flat JSON object of
string/number fields, an array of such objects, or null, so a non-nested
JSON model suffices. -/

inductive JLeaf where
  | str (s : String)
  | num (n : Int)
  | nul
  deriving Repr, DecidableEq

inductive JsonVal where
  | leaf (l : JLeaf)
  | obj (fields : List (String × JLeaf))
  | arr (elems : List (List (String × JLeaf)))
  deriving Repr, DecidableEq

def JLeaf.render : JLeaf → String
  | .str s => "\"" ++ s ++ "\""
  | .num n => toString n
  | .nul => "null"

def renderFields (fs : List (String × JLeaf)) : String :=
  "\x7b" ++ String.intercalate "," (fs.map (fun f => "\"" ++ f.1 ++ "\":" ++ f.2.render)) ++ "\x7d"

/-- Byte serialization of a response body, to compare responses for byte
identity. -/
def JsonVal.render : JsonVal → String
  | .leaf l => l.render
  | .obj fs => renderFields fs
  | .arr es => "[" ++ String.intercalate "," (es.map renderFields) ++ "]"

/-- Whether a body (an object, or any element of an array of objects)
carries a field with the given key. -/
def JsonVal.hasKey (j : JsonVal) (k : String) : Bool :=
  match j with
  | .leaf _ => false
  | .obj fs => fs.any (fun f => f.1 == k)
  | .arr es => es.any (fun fs => fs.any (fun f => f.1 == k))

def getField (fields : List (String × JLeaf)) (k : String) : Option JLeaf :=
  (fields.find? (fun f => f.1 == k)).map (fun f => f.2)

/-! ## Data model: the User record and the Prisma store

The Prisma `user` table, modelled as a list of records; `createdAt` and
timestamps are naturals (seconds). -/

structure User where
  id : Nat
  email : String
  passwordHash : String
  createdAt : Nat
  deriving Repr, DecidableEq

abbrev Store := List User

/-- prisma.user.findUnique on the email unique column. -/
def findByEmail (st : Store) (email : String) : Option User :=
  st.find? (fun u => u.email == email)

/-- prisma.user.findUnique on the id primary key. -/
def findById (st : Store) (id : Nat) : Option User :=
  st.find? (fun u => u.id == id)

/-- The store assigns ids: the next system-assigned integer id. -/
def nextId (st : Store) : Nat :=
  st.foldl (fun m u => max m u.id) 0 + 1

/-- prisma.user.create: fails (unique-constraint violation, P2002) when the
email is already present, as spec section 6 requires of the relational
store; otherwise appends a fresh record with a system-assigned id and
createdAt set to the current time. -/
def createUser (st : Store) (email passwordHash : String) (now : Nat) :
    Option (Store × User) :=
  match findByEmail st email with
  | some _ => none
  | none =>
    let u : User := ⟨nextId st, email, passwordHash, now⟩
    some (st ++ [u], u)

/-! ## Credential Hasher (bcrypt) -/

/-- Modelled from the spec: the Credential Hasher is the external bcrypt
library, not code under src/.  Spec section 4.1 specifies a one-way
transform with a tunable cost factor; we model it as a tagged encoding so
that hashed values are syntactically distinguishable from the plaintext
they were derived from (the tag mirrors bcrypt's output format). -/
def bcryptHash (cost : Nat) (plaintext : String) : String :=
  "$2b$" ++ toString cost ++ "$" ++ plaintext

/-- Modelled from the spec: bcrypt.compare returns true exactly when the
plaintext matches the hashed value (spec section 4.1: returns false on any
mismatch, never throws).  server.ts always hashes with cost 10. -/
def bcryptCompare (plaintext hashed : String) : Bool :=
  bcryptHash 10 plaintext == hashed

/-! ## Token Issuer/Verifier (fastify-jwt) -/

structure TokenPayload where
  userId : Nat
  exp : Nat
  deriving Repr, DecidableEq

structure Token where
  payload : TokenPayload
  sig : String
  deriving Repr, DecidableEq

/-- Modelled from the spec: the Token Issuer is the external fastify-jwt
library registered in server.ts with sign.expiresIn of one hour and the
server-held secret.  Spec section 4.3: the token encodes the userId and an
expiry exactly 1 hour from issuance, signed with the secret; the signature
is modelled as a keyed tag over the payload. -/
def jwtSign (secret : String) (userId : Nat) (now : Nat) : Token :=
  let payload : TokenPayload := ⟨userId, now + 3600⟩
  ⟨payload, secret ++ "|" ++ toString payload.userId ++ "|" ++ toString payload.exp⟩

/-- Modelled from the spec: token verification (spec section 4.3) fails when
the signature does not match the secret or the token is expired, and
otherwise returns the decoded payload. -/
def jwtVerify (secret : String) (tok : Token) (now : Nat) : Option TokenPayload :=
  if tok.sig == secret ++ "|" ++ toString tok.payload.userId ++ "|" ++ toString tok.payload.exp
      && now < tok.payload.exp then
    some tok.payload
  else none

/-! ## zod shape validation -/

/-- Modelled from the spec: the email format check of z.string().email() is
external zod library code; we model the essential shape (one at-sign with a
nonempty local part and a nonempty domain, no spaces). -/
def isEmail (s : String) : Bool :=
  let cs := s.toList
  (cs.count '@' == 1) &&
  !(cs.takeWhile (fun c => c != '@')).isEmpty &&
  !((cs.dropWhile (fun c => c != '@')).drop 1).isEmpty &&
  !(cs.contains ' ')

structure Cred where
  email : String
  password : String
  deriving Repr, DecidableEq

/-- The z.object schema shared by POST /auth/signup and POST /auth/login:
email must be a string in email format, password a string of length at
least 6 (z.string().min(6) counts characters). -/
def parseCred (body : JsonVal) : Option Cred :=
  match body with
  | .obj fields =>
    match getField fields "email", getField fields "password" with
    | some (.str e), some (.str p) =>
      if isEmail e && 6 ≤ p.length then some ⟨e, p⟩ else none
    | _, _ => none
  | _ => none

structure CreateUserBody where
  email : String
  passwordHash : String
  deriving Repr, DecidableEq

/-- The z.object schema of POST /users: email in email format, and a field
named passwordHash of length at least 6. -/
def parseCreateUserBody (body : JsonVal) : Option CreateUserBody :=
  match body with
  | .obj fields =>
    match getField fields "email", getField fields "passwordHash" with
    | some (.str e), some (.str p) =>
      if isEmail e && 6 ≤ p.length then some ⟨e, p⟩ else none
    | _, _ => none
  | _ => none

/-- An optional string field of a z.object schema: absent is fine, present
values must be strings passing the field's check. -/
def parseOptStr (l : Option JLeaf) (check : String → Bool) : Option (Option String) :=
  match l with
  | none => some none
  | some (.str s) => if check s then some (some s) else none
  | some _ => none

structure PatchBody where
  email? : Option String
  passwordHash? : Option String
  deriving Repr, DecidableEq

/-- The z.object schema of PATCH /users/:id: both fields optional; when
present, email must be in email format and passwordHash at least 6 long. -/
def parsePatchBody (body : JsonVal) : Option PatchBody :=
  match body with
  | .obj fields => do
    let e ← parseOptStr (getField fields "email") isEmail
    let p ← parseOptStr (getField fields "passwordHash") (fun s => 6 ≤ s.length)
    pure ⟨e, p⟩
  | _ => none

/-- The id params schema shared by the /users/:id routes:
z.string().regex of one-or-more digits, then Number(id). -/
def parseId (s : String) : Option Nat :=
  let cs := s.toList
  if !cs.isEmpty && cs.all Char.isDigit then
    some (cs.foldl (fun n c => n * 10 + (c.toNat - 48)) 0)
  else none

/-! ## Responses -/

structure HttpResponse where
  status : Nat
  body : JsonVal
  deriving Repr, DecidableEq

/-- An uncaught exception reaching the framework boundary.  server.ts
registers no error handler, so an error thrown outside a try/catch and
carrying no statusCode of its own is mapped by the framework's default to a
generic 500 (spec section 7 calls these unclassified exceptions, surfaced
as a generic 500 without leaking internals). -/
def internalErrorResponse : HttpResponse :=
  ⟨500, .obj [("error", .str "Internal Server Error")]⟩

/-! ## Route handlers (server.ts) -/

/-- Result of an /auth handler: the store after the request, the reply, and
the session cookie set by reply.setCookie (name token), when any. -/
structure AuthResult where
  store : Store
  resp : HttpResponse
  cookie : Option Token
  deriving Repr, DecidableEq

/-- POST /auth/signup (server.ts lines 86-112).  schema.parse throws on a
malformed body; this handler has no try/catch, so the error is uncaught and
surfaces as the framework's generic 500.  Otherwise: uniqueness check (400
on conflict, before any write), bcrypt hash at cost 10, persist, sign a
token for the new id, set the cookie, reply 201 with id and email only. -/
def signup (st : Store) (body : JsonVal) (now : Nat) (secret : String) : AuthResult :=
  match parseCred body with
  | none => ⟨st, internalErrorResponse, none⟩
  | some c =>
    match findByEmail st c.email with
    | some _ => ⟨st, ⟨400, .obj [("error", .str "Email already exists")]⟩, none⟩
    | none =>
      let hashedPassword := bcryptHash 10 c.password
      match createUser st c.email hashedPassword now with
      | none => ⟨st, internalErrorResponse, none⟩
      | some (st2, user) =>
        let token := jwtSign secret user.id now
        ⟨st2, ⟨201, .obj [("id", .num user.id), ("email", .str user.email)]⟩, some token⟩

/-- POST /auth/login (server.ts lines 115-138).  Like signup, a malformed
body throws uncaught (generic 500).  Unknown email and failed
bcrypt.compare both reply 401 with body error Invalid credentials; on
success a token is signed, the cookie set, and the reply is 200 with id and
email. -/
def login (st : Store) (body : JsonVal) (now : Nat) (secret : String) : AuthResult :=
  match parseCred body with
  | none => ⟨st, internalErrorResponse, none⟩
  | some c =>
    match findByEmail st c.email with
    | none => ⟨st, ⟨401, .obj [("error", .str "Invalid credentials")]⟩, none⟩
    | some user =>
      if !(bcryptCompare c.password user.passwordHash) then
        ⟨st, ⟨401, .obj [("error", .str "Invalid credentials")]⟩, none⟩
      else
        let token := jwtSign secret user.id now
        ⟨st, ⟨200, .obj [("id", .num user.id), ("email", .str user.email)]⟩, some token⟩

/-- The public projection select id, email, createdAt used by the /users
read routes. -/
def userPublicJson (u : User) : List (String × JLeaf) :=
  [("id", .num u.id), ("email", .str u.email), ("createdAt", .num u.createdAt)]

/-- POST /users (server.ts lines 141-161).  The whole body is inside a
try/catch mapping any thrown error to 400 with the error's message (the
message texts are abstracted here).  The client-supplied passwordHash field
is itself bcrypt-hashed at cost 10 before the create; the 201 reply is the
created user with the passwordHash key destructured away. -/
def postUsers (st : Store) (body : JsonVal) (now : Nat) : Store × HttpResponse :=
  match parseCreateUserBody body with
  | none => (st, ⟨400, .obj [("error", .str "ValidationError")]⟩)
  | some c =>
    let hashedPassword := bcryptHash 10 c.passwordHash
    match createUser st c.email hashedPassword now with
    | none => (st, ⟨400, .obj [("error", .str "ConflictError")]⟩)
    | some (st2, user) => (st2, ⟨201, .obj (userPublicJson user)⟩)

/-- GET /users (server.ts lines 164-169): findMany with select id, email,
createdAt. -/
def getUsers (st : Store) : HttpResponse :=
  ⟨200, .arr (st.map userPublicJson)⟩

/-- GET /users/:id (server.ts lines 172-183).  paramsSchema.parse is not
wrapped in a try/catch, so a non-numeric id throws uncaught (generic 500);
a missing user replies 404, otherwise 200 with the select projection. -/
def getUserById (st : Store) (idParam : String) : HttpResponse :=
  match parseId idParam with
  | none => internalErrorResponse
  | some id =>
    match findById st id with
    | none => ⟨404, .obj [("error", .str "User not found")]⟩
    | some u => ⟨200, .obj (userPublicJson u)⟩

/-- JavaScript truthiness of a string, as tested by the if (email) and
if (passwordHash) guards of the PATCH handler: the empty string is falsy. -/
def jsTruthy (s : String) : Bool := s != ""

/-- The data object the PATCH handler builds: each field enters only when
its parsed value is truthy, and a provided password is bcrypt-hashed at
cost 10 by the handler before being stored. -/
def patchData (parsed : PatchBody) : PatchBody :=
  ⟨match parsed.email? with
   | some e => if jsTruthy e then some e else none
   | none => none,
   match parsed.passwordHash? with
   | some p => if jsTruthy p then some (bcryptHash 10 p) else none
   | none => none⟩

/-- Applying a prisma update data object to a record: fields present in the
data replace the record's, absent fields are left as they are; id and
createdAt are never part of the data. -/
def applyData (d : PatchBody) (u : User) : User :=
  { u with
    email := d.email?.getD u.email,
    passwordHash := d.passwordHash?.getD u.passwordHash }

/-- Whether writing the data's email onto the record with the given id
would violate the store's unique constraint on email: some other record
already holds that email. -/
def emailConflict (st : Store) (id : Nat) (d : PatchBody) : Bool :=
  match d.email? with
  | some e => st.any (fun v => v.email == e && !(v.id == id))
  | none => false

/-- prisma.user.update: fails (P2025) when the id is absent, fails (P2002)
when the data sets email to one another record already holds — the
relational store enforces a unique constraint on email (spec section 6) —
and otherwise rewrites the matching record with the data and returns it. -/
def updateById (st : Store) (id : Nat) (d : PatchBody) : Option (Store × User) :=
  match findById st id with
  | none => none
  | some u =>
    if emailConflict st id d then none
    else some (st.map (fun v => if v.id == id then applyData d v else v), applyData d u)

/-- PATCH /users/:id (server.ts lines 186-211).  Both schema parses and the
update run inside a try/catch that maps every thrown error — the P2025
not-found error and the P2002 unique-email violation included — to 400
with the error's message (message texts abstracted); a successful update
replies 200 with the select projection of the updated record. -/
def patchUsers (st : Store) (idParam : String) (body : JsonVal) : Store × HttpResponse :=
  match parseId idParam with
  | none => (st, ⟨400, .obj [("error", .str "ValidationError")]⟩)
  | some id =>
    match parsePatchBody body with
    | none => (st, ⟨400, .obj [("error", .str "ValidationError")]⟩)
    | some parsed =>
      match updateById st id (patchData parsed) with
      | none => (st, ⟨400, .obj [("error", .str "PrismaKnownRequestError")]⟩)
      | some (st2, u) => (st2, ⟨200, .obj (userPublicJson u)⟩)

/-- prisma.user.delete: fails (P2025) when the id is absent, otherwise
removes the matching record. -/
def deleteById (st : Store) (id : Nat) : Option Store :=
  match findById st id with
  | none => none
  | some _ => some (st.filter (fun u => !(u.id == id)))

/-- DELETE /users/:id (server.ts lines 213-223).  paramsSchema.parse stands
before the try, so a non-numeric id throws uncaught (generic 500); inside
the try any delete failure replies 404, success replies 204 with an empty
body. -/
def deleteUsers (st : Store) (idParam : String) : Store × HttpResponse :=
  match parseId idParam with
  | none => (st, internalErrorResponse)
  | some id =>
    match deleteById st id with
    | none => (st, ⟨404, .obj [("error", .str "User not found")]⟩)
    | some st2 => (st2, ⟨204, .leaf .nul⟩)

/-- The authenticate decorator (server.ts lines 49-58): request.jwtVerify
reads the token from the cookie or the Authorization Bearer header and, on
a missing or invalid token, throws an error carrying statusCode 401, which
reply.send forwards, so the route handler is never reached; on success the
decoded payload is attached to request.user. -/
def authenticateGate (secret : String) (tok : Option Token) (now : Nat) :
    Except HttpResponse Nat :=
  match tok with
  | none => .error ⟨401, .obj [("error", .str "Unauthorized")]⟩
  | some t =>
    match jwtVerify secret t now with
    | none => .error ⟨401, .obj [("error", .str "Unauthorized")]⟩
    | some p => .ok p.userId

/-- The GET /me handler body (server.ts lines 225-229): reads
request.user.userId, then prisma.user.findUnique on it with no select
clause, returning the full record.  When userId is undefined, Prisma
rejects the undefined unique argument with a validation error (modelled
from its collaborator contract), which is uncaught here and surfaces as the
generic 500.  When the user is missing the handler returns null, serialized
with the default 200 status. -/
def meHandler (st : Store) (userId? : Option Nat) : HttpResponse :=
  match userId? with
  | none => internalErrorResponse
  | some uid =>
    match findById st uid with
    | none => ⟨200, .leaf .nul⟩
    | some u =>
      ⟨200, .obj [("id", .num u.id), ("email", .str u.email),
        ("passwordHash", .str u.passwordHash), ("createdAt", .num u.createdAt)]⟩

/-- GET /me as registered (server.ts line 225): app.get with no preHandler,
so the authenticateGate never runs on this route, request.jwtVerify is
never called, and request.user stays unset whatever token the request
carries — the handler always runs with userId undefined. -/
def routeMe (st : Store) (tok : Option Token) (secret : String) (now : Nat) :
    HttpResponse :=
  meHandler st none

/-! ## Write operations and the stored-hash invariant -/

/-- The three request kinds that write a user record. -/
inductive WriteOp where
  | signupOp (body : JsonVal) (secret : String)
  | postUsersOp (body : JsonVal)
  | patchUsersOp (idParam : String) (body : JsonVal)

/-- The store after one write request. -/
def applyWrite (st : Store) (op : WriteOp) (now : Nat) : Store :=
  match op with
  | .signupOp b secret => (signup st b now secret).store
  | .postUsersOp b => (postUsers st b now).1
  | .patchUsersOp i b => (patchUsers st i b).1

/-- Every stored passwordHash is an output of the Credential Hasher at the
server's cost factor 10. -/
def hashedInvariant (st : Store) : Prop :=
  ∀ u ∈ st, ∃ p, u.passwordHash = bcryptHash 10 p

/-! ## Concrete fixtures for witnesses and counterexamples -/

def demoUser : User := ⟨1, "a@x.com", bcryptHash 10 "secret1", 0⟩

def loginBodyNoUser : JsonVal :=
  .obj [("email", .str "b@x.com"), ("password", .str "secret1")]

def loginBodyWrongPw : JsonVal :=
  .obj [("email", .str "a@x.com"), ("password", .str "wrongpw")]

def badSignupBody : JsonVal :=
  .obj [("email", .str "not-an-email"), ("password", .str "secret1")]

def signupBodyOk : JsonVal :=
  .obj [("email", .str "a@x.com"), ("password", .str "secret1")]

def signupBodyDupEmail : JsonVal :=
  .obj [("email", .str "a@x.com"), ("password", .str "anotherpw")]

def patchEmailOnlyBody : JsonVal := .obj [("email", .str "b@x.com")]

def shortPwFields : List (String × JLeaf) :=
  [("email", .str "a@x.com"), ("password", .str "short")]

/-! ## Helper lemmas -/

theorem findById_map_of_id_pres (st : Store) (id : Nat) (f : User → User)
    (hf : ∀ v, (f v).id = v.id) :
    findById (st.map f) id = (findById st id).map f := by
  induction st with
  | nil => rfl
  | cons v tl ih =>
    simp only [List.map_cons, findById, List.find?] at *
    rw [hf v]
    cases hv : (v.id == id) with
    | true => rfl
    | false => exact ih

theorem bcryptHash_ne_id (p : String) : bcryptHash 10 p ≠ p := by
  intro hp
  have hlen := congrArg String.length hp
  have hpre : ("$2b$" ++ toString (10 : Nat) ++ "$").length = 7 := rfl
  rw [show bcryptHash 10 p = ("$2b$" ++ toString (10 : Nat) ++ "$") ++ p from rfl] at hlen
  rw [String.length_append, hpre] at hlen
  omega

/-! ## Claims -/

/-- C1: the spec claims every read operation returning a User excludes the
passwordHash field, in particular GET /me.  Refuted on the code: the GET
/me handler does a findUnique with no select clause and returns the full
record, so for a userId resolving to an existing user the 200 body carries
the passwordHash field; GET /users and GET /users/:id do exclude it. -/
theorem c1_me_response_carries_passwordHash :
    (meHandler [demoUser] (some 1)).status = 200 ∧
    (meHandler [demoUser] (some 1)).body.hasKey "passwordHash" = true ∧
    (getUsers [demoUser]).body.hasKey "passwordHash" = false ∧
    (getUserById [demoUser] "1").body.hasKey "passwordHash" = false :=
  ⟨rfl, rfl, rfl, rfl⟩

/-- C2: the spec claims GET /me without a valid token is rejected 401 by
the guard without invoking the handler.  Refuted on the code: the route is
registered with no preHandler, so the authenticate decorator never runs;
with no token (and even with a freshly signed valid one) the handler itself
runs with an undefined userId and the response is the generic 500, not
401. -/
theorem c2_me_route_is_unguarded :
    routeMe [demoUser] none "super-secret-key" 0 = internalErrorResponse ∧
    (routeMe [demoUser] none "super-secret-key" 0).status ≠ 401 ∧
    routeMe [demoUser] (some (jwtSign "super-secret-key" 1 0)) "super-secret-key" 0
      = internalErrorResponse :=
  ⟨rfl, by decide, rfl⟩

/-- C3: a login for an unknown email and a login for a known email with a
wrong password produce identical responses: the same 401 status and
byte-identical bodies, so the two failure causes are indistinguishable. -/
theorem c3_login_failures_indistinguishable
    (st1 st2 : Store) (b1 b2 : JsonVal) (now1 now2 : Nat) (sec1 sec2 : String)
    (c1 c2 : Cred) (u : User)
    (hp1 : parseCred b1 = some c1)
    (hnone : findByEmail st1 c1.email = none)
    (hp2 : parseCred b2 = some c2)
    (hsome : findByEmail st2 c2.email = some u)
    (hbad : bcryptCompare c2.password u.passwordHash = false) :
    (login st1 b1 now1 sec1).resp.status = 401 ∧
    (login st1 b1 now1 sec1).resp.body.render = (login st2 b2 now2 sec2).resp.body.render ∧
    (login st1 b1 now1 sec1).resp = (login st2 b2 now2 sec2).resp := by
  simp [login, hp1, hp2, hnone, hsome, hbad]

theorem c3_login_failures_indistinguishable_witness :
    (login [] loginBodyNoUser 0 "s").resp = (login [demoUser] loginBodyWrongPw 7 "t").resp ∧
    (login [] loginBodyNoUser 0 "s").resp.status = 401 :=
  have h := c3_login_failures_indistinguishable [] [demoUser] loginBodyNoUser
    loginBodyWrongPw 0 7 "s" "t" ⟨"b@x.com", "secret1"⟩ ⟨"a@x.com", "wrongpw"⟩
    demoUser rfl rfl rfl rfl rfl
  ⟨h.2.2, h.1⟩

/-- C4: the spec claims a malformed signup/login body yields a
ValidationError mapped to 400 before any store access.  The before-any-
store-access part holds (the store is untouched and no token is issued),
but the /auth handlers have no try/catch and no error handler is
registered, so the thrown validation error surfaces as the framework's
generic 500, not 400: evaluation at the failing input. -/
theorem c4_malformed_auth_body_yields_500 :
    (signup [demoUser] badSignupBody 0 "s").resp.status = 500 ∧
    (signup [demoUser] badSignupBody 0 "s").store = [demoUser] ∧
    (signup [demoUser] badSignupBody 0 "s").cookie = none ∧
    (login [demoUser] badSignupBody 0 "s").resp.status = 500 ∧
    (login [demoUser] badSignupBody 0 "s").store = [demoUser] ∧
    (login [demoUser] badSignupBody 0 "s").cookie = none :=
  ⟨rfl, rfl, rfl, rfl, rfl, rfl⟩

/-- C5 counterexample: the claim says a PATCH to an absent well-formed
numeric id maps the not-found store error to 404; on the code the PATCH
catch-all maps it to 400: at the empty store, PATCH /users/1 with a valid
body replies 400. -/
theorem c5_patch_not_found_is_400_counterexample :
    (patchUsers [] "1" patchEmailOnlyBody).2.status = 400 ∧
    ¬ (patchUsers [] "1" patchEmailOnlyBody).2.status = 404 :=
  ⟨rfl, by decide⟩

/-- C5 amended: for a well-formed numeric id absent from the store (and a
well-formed body), DELETE /users/:id maps the not-found store error to 404,
while PATCH /users/:id maps it — through its catch-all — to 400; neither
changes the store. -/
theorem c5_amended_delete404_patch400 (st : Store) (idParam : String) (id : Nat)
    (body : JsonVal) (d : PatchBody)
    (hid : parseId idParam = some id)
    (hb : parsePatchBody body = some d)
    (habs : findById st id = none) :
    (patchUsers st idParam body).2.status = 400 ∧
    (deleteUsers st idParam).2 = ⟨404, .obj [("error", .str "User not found")]⟩ ∧
    (patchUsers st idParam body).1 = st ∧ (deleteUsers st idParam).1 = st := by
  simp [patchUsers, deleteUsers, updateById, deleteById, hid, hb, habs]

theorem c5_amended_delete404_patch400_witness :
    (patchUsers [] "1" patchEmailOnlyBody).2.status = 400 ∧
    (deleteUsers [] "1").2 = ⟨404, .obj [("error", .str "User not found")]⟩ ∧
    (patchUsers [] "1" patchEmailOnlyBody).1 = [] ∧ (deleteUsers [] "1").1 = [] :=
  c5_amended_delete404_patch400 [] "1" 1 patchEmailOnlyBody
    ⟨some "b@x.com", none⟩ rfl rfl rfl

/-- C6: a signup whose body passes shape validation but whose email is
already registered replies 400 with the conflict message, whatever the
password, and leaves the store unchanged with no cookie set. -/
theorem c6_signup_conflict (st : Store) (body : JsonVal) (now : Nat) (secret : String)
    (c : Cred) (u : User)
    (hp : parseCred body = some c)
    (hex : findByEmail st c.email = some u) :
    signup st body now secret =
      ⟨st, ⟨400, .obj [("error", .str "Email already exists")]⟩, none⟩ := by
  simp only [signup, hp, hex]

theorem c6_signup_conflict_witness :
    signup [demoUser] signupBodyDupEmail 5 "s" =
      ⟨[demoUser], ⟨400, .obj [("error", .str "Email already exists")]⟩, none⟩ :=
  c6_signup_conflict [demoUser] signupBodyDupEmail 5 "s"
    ⟨"a@x.com", "anotherpw"⟩ demoUser rfl rfl

/-- C7: a token signed for a userId carries that userId and an expiry
exactly one hour after issuance, and verifying it with the same secret
immediately after issuance succeeds and returns the userId. -/
theorem c7_issue_verify_roundtrip (secret : String) (userId now : Nat) :
    jwtVerify secret (jwtSign secret userId now) now = some ⟨userId, now + 3600⟩ ∧
    (jwtSign secret userId now).payload = ⟨userId, now + 3600⟩ := by
  refine ⟨?_, rfl⟩
  unfold jwtVerify jwtSign
  simp

theorem hashedInvariant_append (st : Store) (h : hashedInvariant st)
    (u : User) (p : String) (hu : u.passwordHash = bcryptHash 10 p) :
    hashedInvariant (st ++ [u]) := by
  intro v hv
  rcases List.mem_append.mp hv with hv | hv
  · exact h v hv
  · rw [List.mem_singleton.mp hv]
    exact ⟨p, hu⟩

theorem createUser_hashedInvariant (st : Store) (e p : String) (now : Nat)
    (h : hashedInvariant st) (r : Store × User)
    (hr : createUser st e (bcryptHash 10 p) now = some r) :
    hashedInvariant r.1 := by
  unfold createUser at hr
  cases hfe : findByEmail st e with
  | some u => rw [hfe] at hr; cases hr
  | none =>
    rw [hfe] at hr
    injection hr with hr
    rw [← hr]
    exact hashedInvariant_append st h _ p rfl

theorem updateById_hashedInvariant (st : Store) (id : Nat) (pb : PatchBody)
    (h : hashedInvariant st) (r : Store × User)
    (hr : updateById st id (patchData pb) = some r) :
    hashedInvariant r.1 := by
  unfold updateById at hr
  split at hr
  · cases hr
  · split at hr
    · cases hr
    · injection hr with hr
      rw [← hr]
      intro v hv
      rcases List.mem_map.mp hv with ⟨w, hw, rfl⟩
      cases hid : (w.id == id) with
      | false => simpa [hid] using h w hw
      | true =>
        simp only [hid, if_true]
        cases hph : pb.passwordHash? with
        | none => simpa [applyData, patchData, hph] using h w hw
        | some p =>
          cases ht : jsTruthy p with
          | false => simpa [applyData, patchData, hph, ht] using h w hw
          | true => exact ⟨p, by simp [applyData, patchData, hph, ht]⟩

/-- C8: invariant of every write path (signup, POST /users, PATCH
/users/:id): when every stored passwordHash is an output of the Credential
Hasher, it still is after the write — each path hashes server-side with
bcrypt at cost 10 before storing — and a hasher output is never the
client-supplied string itself. -/
theorem c8_stored_hashes_are_hasher_outputs (st : Store) (op : WriteOp) (now : Nat)
    (h : hashedInvariant st) :
    hashedInvariant (applyWrite st op now) ∧ ∀ p, bcryptHash 10 p ≠ p := by
  refine ⟨?_, bcryptHash_ne_id⟩
  cases op with
  | signupOp b secret =>
    cases hp : parseCred b with
    | none => simpa only [applyWrite, signup, hp] using h
    | some c =>
      cases he : findByEmail st c.email with
      | some u => simpa only [applyWrite, signup, hp, he] using h
      | none =>
        cases hc : createUser st c.email (bcryptHash 10 c.password) now with
        | none => simpa only [applyWrite, signup, hp, he, hc] using h
        | some r =>
          obtain ⟨st2, user⟩ := r
          simpa only [applyWrite, signup, hp, he, hc] using
            createUser_hashedInvariant st c.email c.password now h (st2, user) hc
  | postUsersOp b =>
    cases hp : parseCreateUserBody b with
    | none => simpa only [applyWrite, postUsers, hp] using h
    | some c =>
      cases hc : createUser st c.email (bcryptHash 10 c.passwordHash) now with
      | none => simpa only [applyWrite, postUsers, hp, hc] using h
      | some r =>
        obtain ⟨st2, user⟩ := r
        simpa only [applyWrite, postUsers, hp, hc] using
          createUser_hashedInvariant st c.email c.passwordHash now h (st2, user) hc
  | patchUsersOp i b =>
    cases hi : parseId i with
    | none => simpa only [applyWrite, patchUsers, hi] using h
    | some id =>
      cases hb : parsePatchBody b with
      | none => simpa only [applyWrite, patchUsers, hi, hb] using h
      | some pb =>
        cases hu : updateById st id (patchData pb) with
        | none => simpa only [applyWrite, patchUsers, hi, hb, hu] using h
        | some r =>
          obtain ⟨st2, u2⟩ := r
          simpa only [applyWrite, patchUsers, hi, hb, hu] using
            updateById_hashedInvariant st id pb h (st2, u2) hu

theorem c8_stored_hashes_are_hasher_outputs_witness :
    hashedInvariant (applyWrite [] (.signupOp signupBodyOk "s") 0) :=
  (c8_stored_hashes_are_hasher_outputs [] (.signupOp signupBodyOk "s") 0
    (fun u hu => absurd hu (List.not_mem_nil u))).1

/-- C9: frame property of every successful PATCH /users/:id (one whose
reply is 200, so the update neither missed the id nor hit the unique-email
constraint): only the provided fields change on the stored record — when
the body provides no email the stored email is unchanged, when it provides
no passwordHash the stored passwordHash is unchanged, and createdAt is
always unchanged. -/
theorem c9_patch_changes_only_provided_fields (st : Store) (idParam : String)
    (body : JsonVal) (id : Nat) (d : PatchBody) (u : User)
    (hid : parseId idParam = some id)
    (hb : parsePatchBody body = some d)
    (hu : findById st id = some u)
    (hsucc : (patchUsers st idParam body).2.status = 200) :
    ∃ u2, findById (patchUsers st idParam body).1 id = some u2 ∧
      u2.createdAt = u.createdAt ∧
      (d.email? = none → u2.email = u.email) ∧
      (d.passwordHash? = none → u2.passwordHash = u.passwordHash) := by
  cases hnc : emailConflict st id (patchData d) with
  | true =>
    exfalso
    have hnone : updateById st id (patchData d) = none := by
      unfold updateById
      rw [hu, hnc]
      simp
    have h400 : (patchUsers st idParam body).2.status = 400 := by
      simp only [patchUsers, hid, hb, hnone]
    rw [h400] at hsucc
    exact absurd hsucc (by decide)
  | false =>
    have hupd : updateById st id (patchData d) =
        some (st.map (fun v => if v.id == id then applyData (patchData d) v else v),
          applyData (patchData d) u) := by
      unfold updateById
      rw [hu, hnc]
      simp
    simp only [patchUsers, hid, hb, hupd]
    refine ⟨applyData (patchData d) u, ?_, rfl, ?_, ?_⟩
    · rw [findById_map_of_id_pres st id _ (fun v => by
        cases hv : (v.id == id) <;> simp [hv, applyData])]
      rw [hu]
      have hu2 : st.find? (fun v => v.id == id) = some u := hu
      have hueq : (u.id == id) = true := by simpa using List.find?_some hu2
      have hid2 : u.id = id := by simpa using hueq
      simp [hid2]
    · intro he
      simp [applyData, patchData, he]
    · intro hph
      simp [applyData, patchData, hph]

theorem c9_patch_changes_only_provided_fields_witness :
    (patchUsers [demoUser] "1" patchEmailOnlyBody).2.status = 200 ∧
    ∃ u2, findById (patchUsers [demoUser] "1" patchEmailOnlyBody).1 1 = some u2 ∧
      u2.createdAt = demoUser.createdAt ∧
      ((⟨some "b@x.com", none⟩ : PatchBody).email? = none → u2.email = demoUser.email) ∧
      ((⟨some "b@x.com", none⟩ : PatchBody).passwordHash? = none →
        u2.passwordHash = demoUser.passwordHash) :=
  ⟨rfl, c9_patch_changes_only_provided_fields [demoUser] "1" patchEmailOnlyBody 1
    ⟨some "b@x.com", none⟩ demoUser rfl rfl rfl rfl⟩

/-- C10: the body-shape validation shared by POST /auth/signup and POST
/auth/login concretely demands an email-shaped email and a password of at
least 6 characters; a body whose password is shorter than 6 fails the
parse, and then neither handler touches the store or issues a token. -/
theorem c10_short_password_rejected (fields : List (String × JLeaf)) (e p : String)
    (he : getField fields "email" = some (.str e))
    (hp : getField fields "password" = some (.str p))
    (hshort : p.length < 6) :
    parseCred (.obj fields) = none ∧
    (∀ st now secret, (signup st (.obj fields) now secret).store = st ∧
        (signup st (.obj fields) now secret).cookie = none ∧
        (login st (.obj fields) now secret).store = st ∧
        (login st (.obj fields) now secret).cookie = none) ∧
    (∀ b c, parseCred b = some c → isEmail c.email = true ∧ 6 ≤ c.password.length) := by
  have hnone : parseCred (.obj fields) = none := by
    have hlt : ¬ (6 ≤ p.length) := by omega
    simp [parseCred, he, hp, hlt]
  refine ⟨hnone, ?_, ?_⟩
  · intro st now secret
    simp [signup, login, hnone]
  · intro b c hbc
    cases b with
    | leaf l => simp [parseCred] at hbc
    | arr es => simp [parseCred] at hbc
    | obj fs =>
      simp only [parseCred] at hbc
      split at hbc
      · split at hbc
        · rename_i e2 p2 hcond
          injection hbc with hbc
          rw [← hbc]
          rw [Bool.and_eq_true] at hcond
          exact ⟨hcond.1, of_decide_eq_true hcond.2⟩
        · cases hbc
      · cases hbc

theorem c10_short_password_rejected_witness :
    parseCred (.obj shortPwFields) = none ∧
    (∀ st now secret, (signup st (.obj shortPwFields) now secret).store = st ∧
        (signup st (.obj shortPwFields) now secret).cookie = none ∧
        (login st (.obj shortPwFields) now secret).store = st ∧
        (login st (.obj shortPwFields) now secret).cookie = none) ∧
    (∀ b c, parseCred b = some c → isEmail c.email = true ∧ 6 ≤ c.password.length) :=
  c10_short_password_rejected shortPwFields "a@x.com" "short" rfl rfl (by decide)

end EventHub
